import Mathlib

/-!
Verification of the diagnostic-filtering core of `cargo-diff-tools`.

The engine (in `src/lib.rs`) parses a zero-context unified diff into a map
from file path to changed line intervals, then filters a stream of build
diagnostics, forwarding only those whose spans overlap a changed interval
(for Error/Warning severities) and tallying the forwarded failures.

The modules `diagnostics`, `diff`, `intervals` and `reporters` are declared
in `lib.rs` but their files are not part of the sources at hand; their
definitions below are modelled from the specification and are marked as such.
The functions `should_report_diagnostic`, `process_stream` and the control
flow of `build_app` are translated from `src/lib.rs` directly.
-/

/-- Modelled from the spec (`src/diagnostics.rs` is absent): the severity
level of a diagnostic. The spec requires distinguishing at least Error,
Warning, Note, Help, Ice and an Unknown catch-all. -/
inductive Level where
  | error
  | warning
  | note
  | help
  | ice
  | unknown
deriving DecidableEq, Repr

/-- Modelled from the spec (`src/diagnostics.rs` is absent): a source span of
a diagnostic: file name and an inclusive, 1-indexed line range. -/
structure Span where
  file_name : String
  line_start : Nat
  line_end : Nat
deriving DecidableEq, Repr

/-- Modelled from the spec (`src/diagnostics.rs` is absent): the message part
of a diagnostic: a severity level and zero or more spans. -/
structure Message where
  level : Level
  spans : List Span
deriving DecidableEq, Repr

/-- Modelled from the spec (`src/diagnostics.rs` is absent): one decoded
build diagnostic; a diagnostic without a `message` is a control record. -/
structure Diagnostic where
  message : Option Message
deriving DecidableEq, Repr

/-- Modelled from the spec (`src/diff.rs` is absent): one changed-line
interval in the new file, inclusive on both ends, 1-indexed. -/
structure LineInterval where
  start : Nat
  stop : Nat
deriving DecidableEq, Repr

/-- Modelled from the spec (`src/diff.rs` is absent): the map from file path
to the ordered list of changed intervals, embedded as an association list. -/
def FileChanges : Type := List (String × List LineInterval)

instance : DecidableEq FileChanges := by
  unfold FileChanges
  infer_instance

/-- Lookup of a file's interval list in a `FileChanges` map. -/
def FileChanges.get (fc : FileChanges) (file : String) : Option (List LineInterval) :=
  List.lookup file fc

/-- Emptiness test of a `FileChanges` map (`FileChanges::is_empty`). -/
def FileChanges.is_empty (fc : FileChanges) : Bool :=
  List.isEmpty fc

/-- Modelled from the spec (`src/intervals.rs` is absent): two inclusive
ranges `[a,b]` (the query) and `[c,d]` (a changed interval) overlap iff
`a <= d && c <= b`; the query scans the list and is true iff some interval
overlaps. -/
def intersect_intervals (line_start line_end : Nat) (intervals : List LineInterval) : Bool :=
  intervals.any (fun iv => line_start ≤ iv.stop && iv.start ≤ line_end)

/-- Overlap contribution of a single span against the changed-ranges map:
the body of the span loop of `should_report_diagnostic` in `src/lib.rs`
(missing file in the map contributes `false`). -/
def span_overlaps (span : Span) (file_changes : FileChanges) : Bool :=
  match file_changes.get span.file_name with
  | some intervals => intersect_intervals span.line_start span.line_end intervals
  | none => false

/-- Translated from `should_report_diagnostic` in `src/lib.rs`: returns
`false` iff the message has level Warning or Error and none of its spans
overlaps a changed interval of its file. -/
def should_report_diagnostic (diagnostic : Diagnostic) (file_changes : FileChanges) : Bool :=
  match diagnostic.message with
  | some message =>
    match message.level with
    | Level.warning => message.spans.any (fun span => span_overlaps span file_changes)
    | Level.error => message.spans.any (fun span => span_overlaps span file_changes)
    | _ => true
  | none => true

/-- Split a character list on a separator character; structurally recursive so
that the kernel can evaluate it (the n+1 groups for n separators, as
`String::split` would give). -/
def split_on_char (c : Char) : List Char → List (List Char)
  | [] => [[]]
  | x :: xs =>
    match split_on_char c xs with
    | [] => [[]]
    | g :: gs => if x = c then [] :: g :: gs else (x :: g) :: gs

/-- Decimal digits to a number, with an accumulator; fails on a non-digit. -/
def chars_to_nat_go (acc : Nat) : List Char → Option Nat
  | [] => some acc
  | c :: rest =>
    if c.isDigit then chars_to_nat_go (acc * 10 + (c.toNat - 48)) rest else none

/-- Parse a nonempty all-digit character list as a number (`u32::from_str`). -/
def chars_to_nat : List Char → Option Nat
  | [] => none
  | c :: rest => chars_to_nat_go 0 (c :: rest)

/-- Whether a character list starts with the given string. -/
def starts_with (p : String) (l : List Char) : Bool :=
  List.isPrefixOf p.toList l

/-- Modelled from the spec (`src/diff.rs` is absent): parse the
`+new_start[,new_count]` (or `-old_start[,old_count]`) token of a hunk
header; the count defaults to 1 when omitted. Fails on unparsable numbers. -/
def parse_new_range (tok : List Char) : Option (Nat × Nat) :=
  match split_on_char ',' (tok.drop 1) with
  | [s] =>
    match chars_to_nat s with
    | some n => some (n, 1)
    | none => none
  | [s, c] =>
    match chars_to_nat s, chars_to_nat c with
    | some n, some k => some (n, k)
    | _, _ => none
  | _ => none

/-- Modelled from the spec (`src/diff.rs` is absent): parse a hunk header
`@@ -old_start[,old_count] +new_start[,new_count] @@ ...`, yielding the
new-file start and count; fails when the shape or the numbers are off. -/
def parse_hunk_header (line : List Char) : Option (Nat × Nat) :=
  match split_on_char ' ' line with
  | at1 :: old :: new :: at2 :: _ =>
    if at1 = "@@".toList && at2 = "@@".toList
        && old.head? = some (Char.ofNat 45) && new.head? = some (Char.ofNat 43) then
      match parse_new_range old with
      | some _ => parse_new_range new
      | none => none
    else none
  | _ => none

/-- Append an interval to a file's list in the map, creating the entry if
absent; hunk order within a file is preserved. -/
def add_interval (fc : FileChanges) (file : String) (iv : LineInterval) : FileChanges :=
  match fc with
  | [] => [(file, [iv])]
  | (f, ivs) :: rest =>
    if f = file then (f, ivs ++ [iv]) :: rest
    else (f, ivs) :: add_interval rest file iv

/-- Parser state: the current target file (if any) and the map built so far. -/
structure ParseState where
  current : Option String
  changes : FileChanges
deriving DecidableEq

/-- Modelled from the spec (`src/diff.rs` is absent): handle one line of the
diff. A `+++ ` header sets the current target file (`/dev/null` clears it);
a `@@` hunk header must parse, and contributes the interval
`[new_start, new_start + new_count - 1]` to the current file unless
`new_count = 0`; every other line is ignored. A malformed hunk header fails
with the offending line. -/
def parse_diff_line (st : ParseState) (line : List Char) : Except String ParseState :=
  if starts_with "@@" line then
    match parse_hunk_header line with
    | none => Except.error (String.mk line)
    | some (new_start, new_count) =>
      if new_count = 0 then Except.ok st
      else
        match st.current with
        | none => Except.ok st
        | some f =>
          Except.ok ⟨some f, add_interval st.changes f ⟨new_start, new_start + new_count - 1⟩⟩
  else if starts_with "+++ " line then
    let path := line.drop 4
    if path = "/dev/null".toList then Except.ok ⟨none, st.changes⟩
    else
      Except.ok
        ⟨some (String.mk (if starts_with "b/" path then path.drop 2 else path)), st.changes⟩
  else Except.ok st

/-- Fold of `parse_diff_line` over the lines of the diff. -/
def parse_diff_lines (st : ParseState) : List (List Char) → Except String ParseState
  | [] => Except.ok st
  | l :: rest =>
    match parse_diff_line st l with
    | Except.error e => Except.error e
    | Except.ok st2 => parse_diff_lines st2 rest

/-- Modelled from the spec (`src/diff.rs` is absent): `parse_diff` turns
zero-context unified diff text into the per-file changed-interval map,
failing with the offending line on a malformed hunk header. Empty input
yields the empty map. -/
def parse_diff (diff : String) : Except String FileChanges :=
  match parse_diff_lines ⟨none, []⟩ (split_on_char (Char.ofNat 10) diff.toList) with
  | Except.error e => Except.error e
  | Except.ok st => Except.ok st.changes

instance {α β : Type} [DecidableEq α] [DecidableEq β] : DecidableEq (Except α β)
  | Except.error a, Except.error b =>
    if h : a = b then isTrue (by rw [h]) else isFalse (fun he => h (by cases he; rfl))
  | Except.error _, Except.ok _ => isFalse (fun he => by cases he)
  | Except.ok _, Except.error _ => isFalse (fun he => by cases he)
  | Except.ok a, Except.ok b =>
    if h : a = b then isTrue (by rw [h]) else isFalse (fun he => h (by cases he; rfl))

/-- Cargo failed-to-complete exit status code (`CARGO_FAILED_EXIT_CODE` in
`src/lib.rs`). -/
def CARGO_FAILED_EXIT_CODE : Int := 101

/-- Modelled from the spec (`src/reporters.rs` is absent): the reporter
renders a forwarded diagnostic and returns whether it was worth tallying,
i.e. whether it counts toward failure: a present message of level Error or
Warning. -/
def report_diagnostic (diagnostic : Diagnostic) : Bool :=
  match diagnostic.message with
  | some message =>
    match message.level with
    | Level.warning => true
    | Level.error => true
    | _ => false
  | none => false

/-- Translated from `process_stream` in `src/lib.rs`: decode each line of
the stream (the `decode` parameter stands for `serde_json::from_str`,
external to the sources); a line that fails to decode aborts with that line;
otherwise the diagnostic is reported when `should_report_diagnostic` says
so, and the tally grows when the reporter found it worth counting. -/
def process_stream (decode : String → Option Diagnostic) (lines : List String)
    (file_changes : FileChanges) : Except String Nat :=
  match lines with
  | [] => Except.ok 0
  | l :: rest =>
    match decode l with
    | none => Except.error l
    | some diagnostic =>
      let c : Nat :=
        if should_report_diagnostic diagnostic file_changes && report_diagnostic diagnostic
        then 1 else 0
      match process_stream decode rest file_changes with
      | Except.error e => Except.error e
      | Except.ok n => Except.ok (c + n)

/-- The per-diagnostic verdict of the filter/tally engine. -/
inductive Verdict where
  | suppress
  | forward (counts_toward_failure : Bool)
deriving DecidableEq, Repr

/-- The verdict the engine reaches for one diagnostic: forwarded when
`should_report_diagnostic` holds, counting when the reporter tallies it. -/
def verdict_of (diagnostic : Diagnostic) (file_changes : FileChanges) : Verdict :=
  if should_report_diagnostic diagnostic file_changes
  then Verdict.forward (report_diagnostic diagnostic)
  else Verdict.suppress

/-- The sequence of verdicts `process_stream` emits before it stops (at the
end of the stream or at the first undecodable line): its observable output. -/
def emitted_verdicts (decode : String → Option Diagnostic) (lines : List String)
    (file_changes : FileChanges) : List Verdict :=
  match lines with
  | [] => []
  | l :: rest =>
    match decode l with
    | none => []
    | some diagnostic => verdict_of diagnostic file_changes :: emitted_verdicts decode rest file_changes

/-- Number of stream lines `process_stream` reads before stopping. -/
def lines_read (decode : String → Option Diagnostic) : List String → Nat
  | [] => 0
  | l :: rest =>
    match decode l with
    | none => 1
    | some _ => 1 + lines_read decode rest

/-- The outcome of one run of the tool. -/
inductive RunResult where
  | success
  | failure (count : Nat)
  | diff_error (line : String)
  | decode_error (line : String)
  | subprocess_error (code : Int)
deriving DecidableEq, Repr

/-- Translated from the control flow of `build_app` in `src/lib.rs` (its
argument handling and process spawning are external I/O): parse the diff;
an empty map is an early success before any diagnostic is read; otherwise
process the diagnostic stream; then, when a subcommand was run
(`subcommand_exit = some code`), a non-zero exit code other than
`CARGO_FAILED_EXIT_CODE` aborts; finally the run fails with the tally when
it is positive and succeeds otherwise. The second component is the number
of diagnostic lines read. -/
def build_app (decode : String → Option Diagnostic) (diff : String)
    (diag_lines : List String) (subcommand_exit : Option Int) : RunResult × Nat :=
  match parse_diff diff with
  | Except.error l => (RunResult.diff_error l, 0)
  | Except.ok file_changes =>
    if file_changes.is_empty then (RunResult.success, 0)
    else
      match process_stream decode diag_lines file_changes with
      | Except.error l => (RunResult.decode_error l, lines_read decode diag_lines)
      | Except.ok reported =>
        match subcommand_exit with
        | some code =>
          if code ≠ 0 ∧ code ≠ CARGO_FAILED_EXIT_CODE then
            (RunResult.subprocess_error code, diag_lines.length)
          else if reported > 0 then (RunResult.failure reported, diag_lines.length)
          else (RunResult.success, diag_lines.length)
        | none =>
          if reported > 0 then (RunResult.failure reported, diag_lines.length)
          else (RunResult.success, diag_lines.length)

/-- C1 counterexample: a zero-span Error diagnostic is NOT forwarded by
`should_report_diagnostic` — the span loop never runs, `intersects_changes`
stays false, and the function returns false. The claim asserts it returns
true for every map; it fails already at the empty map. -/
theorem C1_counterexample :
    should_report_diagnostic ⟨some ⟨Level.error, []⟩⟩ [] = false := by decide

/-- C1 (amended): for every diagnostic whose message is present, whose level
is Error or Warning, and whose message has zero spans,
`should_report_diagnostic` returns false (the diagnostic is suppressed, not
forwarded), for every `FileChanges` map. -/
theorem C1_no_span_suppressed (d : Diagnostic) (fc : FileChanges) (msg : Message)
    (hmsg : d.message = some msg) (hspans : msg.spans = [])
    (hlvl : msg.level = Level.error ∨ msg.level = Level.warning) :
    should_report_diagnostic d fc = false := by
  rcases hlvl with h | h <;>
    simp [should_report_diagnostic, hmsg, h, hspans]

/-- C1 witness: the amended statement at a concrete zero-span Warning. -/
theorem C1_no_span_suppressed_witness :
    should_report_diagnostic ⟨some ⟨Level.warning, []⟩⟩ [("a.rs", [⟨1, 2⟩])] = false :=
  C1_no_span_suppressed _ _ ⟨Level.warning, []⟩ rfl rfl (Or.inr rfl)

/-- C2: for a present message of level Error or Warning with at least one
span, the diagnostic is forwarded iff some span overlaps a changed interval
of its file and suppressed iff none does; for any other level it is
forwarded regardless of span overlap. -/
theorem C2_span_gating (d : Diagnostic) (fc : FileChanges) (msg : Message)
    (hmsg : d.message = some msg) :
    (((msg.level = Level.error ∨ msg.level = Level.warning) ∧ msg.spans ≠ []) →
      (should_report_diagnostic d fc = true ↔ ∃ s ∈ msg.spans, span_overlaps s fc = true) ∧
      (should_report_diagnostic d fc = false ↔ ∀ s ∈ msg.spans, span_overlaps s fc = false)) ∧
    ((msg.level ≠ Level.error ∧ msg.level ≠ Level.warning) →
      should_report_diagnostic d fc = true) := by
  constructor
  · rintro ⟨h | h, _⟩ <;>
    · constructor
      · simp [should_report_diagnostic, hmsg, h, List.any_eq_true]
      · simp [should_report_diagnostic, hmsg, h, List.any_eq_false]
  · rintro ⟨h1, h2⟩
    cases hl : msg.level <;>
      simp_all [should_report_diagnostic, hmsg]

/-- C2 witness: a Warning whose single span overlaps the changed interval is
forwarded; instantiated through the general theorem. -/
theorem C2_span_gating_witness :
    should_report_diagnostic ⟨some ⟨Level.warning, [⟨"a.rs", 10, 10⟩]⟩⟩
      [("a.rs", [⟨10, 11⟩])] = true :=
  ((C2_span_gating _ _ ⟨Level.warning, [⟨"a.rs", 10, 10⟩]⟩ rfl).1
    ⟨Or.inr rfl, by decide⟩).1.mpr ⟨⟨"a.rs", 10, 10⟩, by decide, by decide⟩

/-- C3: any hunk header parsed as `+new_start,new_count` contributes the
interval `[new_start, new_start + new_count - 1]` to the current file (and
nothing when `new_count = 0`); the count defaults to 1 when omitted, so
`+10,3` yields `[10,12]`, `+10,0` yields nothing and `+10` yields `[10,10]`. -/
theorem C3_hunk_interval :
    (∀ (st : ParseState) (f : String) (line : List Char) (ns nc : Nat),
      st.current = some f →
      starts_with "@@" line = true →
      parse_hunk_header line = some (ns, nc) →
      parse_diff_line st line =
        Except.ok (if nc = 0 then st
          else ⟨some f, add_interval st.changes f ⟨ns, ns + nc - 1⟩⟩)) ∧
    parse_hunk_header "@@ -1,2 +10,3 @@".toList = some (10, 3) ∧
    parse_hunk_header "@@ -1,2 +10,0 @@".toList = some (10, 0) ∧
    parse_hunk_header "@@ -1,2 +10 @@".toList = some (10, 1) ∧
    parse_diff "+++ b/a.rs\n@@ -1,2 +10,3 @@\n@@ -5,0 +20,0 @@\n@@ -9,0 +30 @@" =
      Except.ok [("a.rs", [⟨10, 12⟩, ⟨30, 30⟩])] := by
  refine ⟨?_, by decide, by decide, by decide, by decide⟩
  intro st f line ns nc hcur hpre hhdr
  rcases st with ⟨cur, changes⟩
  cases hcur
  by_cases h0 : nc = 0 <;>
    simp [parse_diff_line, hpre, hhdr, h0]

/-- C3 witness: the general clause applied to the header `@@ -1,2 +10,3 @@`
with current file `a.rs` and an empty map appends exactly `[10,12]`. -/
theorem C3_hunk_interval_witness :
    parse_diff_line ⟨some "a.rs", []⟩ "@@ -1,2 +10,3 @@".toList =
      Except.ok ⟨some "a.rs", [("a.rs", [⟨10, 12⟩])]⟩ := by
  have h := C3_hunk_interval.1 ⟨some "a.rs", []⟩ "a.rs" "@@ -1,2 +10,3 @@".toList
    10 3 rfl (by decide) (by decide)
  rw [h]; decide

/-- C4: the overlap test is true iff some interval `[c,d]` of the list
satisfies `a <= d && c <= b` against the query `[a,b]` (all inclusive); in
particular ranges touching only at a boundary overlap: `[4,5]` vs `[5,9]`. -/
theorem C4_overlap :
    (∀ (a b : Nat) (intervals : List LineInterval),
      intersect_intervals a b intervals = true ↔
        ∃ iv ∈ intervals, a ≤ iv.stop ∧ iv.start ≤ b) ∧
    intersect_intervals 4 5 [⟨5, 9⟩] = true := by
  refine ⟨?_, by decide⟩
  intro a b intervals
  simp [intersect_intervals, List.any_eq_true]

/-- C5: a span whose file name has no entry in the changed-ranges map
contributes no overlap — the per-span query answers false (a total
function: no failure or abort is possible). -/
theorem C5_missing_file (span : Span) (fc : FileChanges)
    (h : fc.get span.file_name = none) :
    span_overlaps span fc = false := by
  simp [span_overlaps, h]

/-- C5 witness: a span in `b.rs` against a map that only knows `a.rs`. -/
theorem C5_missing_file_witness :
    span_overlaps ⟨"b.rs", 1, 1⟩ [("a.rs", [⟨1, 2⟩])] = false :=
  C5_missing_file ⟨"b.rs", 1, 1⟩ [("a.rs", [⟨1, 2⟩])] (by decide)

/-- C6: a diff that parses to the empty map makes the run exit early with
success, having read zero diagnostic lines. -/
theorem C6_empty_diff (decode : String → Option Diagnostic) (diff : String)
    (lines : List String) (exit : Option Int)
    (h : parse_diff diff = Except.ok []) :
    build_app decode diff lines exit = (RunResult.success, 0) := by
  simp [build_app, h, FileChanges.is_empty, List.isEmpty]

/-- C6 witness: the empty diff, with a pending stream of undecodable lines
that is never touched. -/
theorem C6_empty_diff_witness :
    build_app (fun _ => none) "" ["not json"] (some 2) = (RunResult.success, 0) :=
  C6_empty_diff (fun _ => none) "" ["not json"] (some 2) (by decide)

/-- C7: a run that processes the stream to completion (and whose subprocess
exit, if any, does not abort it) results in success iff the cumulative
tally of counted forwards is zero, and otherwise in a failure carrying that
tally. -/
theorem C7_tally_result (decode : String → Option Diagnostic) (diff : String)
    (lines : List String) (exit : Option Int) (fc : FileChanges) (n : Nat)
    (hdiff : parse_diff diff = Except.ok fc)
    (hne : fc.is_empty = false)
    (hstream : process_stream decode lines fc = Except.ok n)
    (hexit : exit = none ∨ exit = some 0 ∨ exit = some CARGO_FAILED_EXIT_CODE) :
    ((build_app decode diff lines exit).1 = RunResult.success ↔ n = 0) ∧
    (n ≠ 0 → (build_app decode diff lines exit).1 = RunResult.failure n) := by
  have hbody :
      (build_app decode diff lines exit).1 =
        if n > 0 then RunResult.failure n else RunResult.success := by
    rcases hexit with h | h | h <;>
      subst h <;>
      simp [build_app, hdiff, hne, hstream, CARGO_FAILED_EXIT_CODE] <;>
      by_cases hn : 0 < n <;> simp [hn]
  rw [hbody]
  by_cases h0 : n = 0 <;> simp [h0]

/-- C7 witness: one forwarded counted Warning yields `Failure 1`; the same
run with the diagnostic out of range yields `Success`. -/
theorem C7_tally_result_witness :
    (build_app
      (fun s => if s = "w"
        then some ⟨some ⟨Level.warning, [⟨"a.rs", 10, 10⟩]⟩⟩ else none)
      "+++ b/a.rs\n@@ -1,0 +10,2 @@" ["w"] none).1 = RunResult.failure 1 :=
  (C7_tally_result
    (fun s => if s = "w"
      then some ⟨some ⟨Level.warning, [⟨"a.rs", 10, 10⟩]⟩⟩ else none)
    "+++ b/a.rs\n@@ -1,0 +10,2 @@" ["w"] none [("a.rs", [⟨10, 11⟩])] 1
    (by decide) (by decide) (by decide) (Or.inl rfl)).2 (by decide)

/-- C8: when every line of the prefix decodes and the next line does not,
`process_stream` aborts with an error carrying exactly that offending line,
and the verdicts emitted before the failure are exactly those of a run over
the prefix alone — nothing is skipped and nothing is retracted. -/
theorem C8_decode_error (decode : String → Option Diagnostic) (fc : FileChanges)
    (pre : List String) (bad : String) (rest : List String)
    (hpre : ∀ l ∈ pre, (decode l).isSome = true)
    (hbad : decode bad = none) :
    process_stream decode (pre ++ bad :: rest) fc = Except.error bad ∧
    emitted_verdicts decode (pre ++ bad :: rest) fc = emitted_verdicts decode pre fc := by
  induction pre with
  | nil =>
    simp [process_stream, emitted_verdicts, hbad]
  | cons l pre ih =>
    have hl : (decode l).isSome = true := hpre l (List.mem_cons_self l pre)
    obtain ⟨d, hd⟩ := Option.isSome_iff_exists.mp hl
    have ih2 := ih (fun x hx => hpre x (List.mem_cons_of_mem l hx))
    constructor
    · simp [process_stream, hd, ih2.1]
    · simp [emitted_verdicts, hd, ih2.2]

/-- C8 witness: one good line, then an undecodable one, then another line;
the run aborts with the bad line and the single earlier verdict stands. -/
theorem C8_decode_error_witness :
    process_stream
        (fun s => if s = "w"
          then some ⟨some ⟨Level.warning, [⟨"a.rs", 10, 10⟩]⟩⟩ else none)
        ["w", "zzz", "w"] [("a.rs", [⟨10, 11⟩])] = Except.error "zzz" ∧
    emitted_verdicts
        (fun s => if s = "w"
          then some ⟨some ⟨Level.warning, [⟨"a.rs", 10, 10⟩]⟩⟩ else none)
        ["w", "zzz", "w"] [("a.rs", [⟨10, 11⟩])] =
      emitted_verdicts
        (fun s => if s = "w"
          then some ⟨some ⟨Level.warning, [⟨"a.rs", 10, 10⟩]⟩⟩ else none)
        ["w"] [("a.rs", [⟨10, 11⟩])] :=
  C8_decode_error
    (fun s => if s = "w"
      then some ⟨some ⟨Level.warning, [⟨"a.rs", 10, 10⟩]⟩⟩ else none)
    [("a.rs", [⟨10, 11⟩])] ["w"] "zzz" ["w"] (by decide) (by decide)

/-- C9: a diff whose parse fails aborts the run with the offending line,
with zero diagnostic lines read; in particular the malformed hunk header
`@@ garbage @@` makes the parse fail with that line. -/
theorem C9_malformed_diff :
    (∀ (decode : String → Option Diagnostic) (diff : String)
      (lines : List String) (exit : Option Int) (l : String),
      parse_diff diff = Except.error l →
      build_app decode diff lines exit = (RunResult.diff_error l, 0)) ∧
    parse_diff "@@ garbage @@" = Except.error "@@ garbage @@" := by
  refine ⟨?_, by decide⟩
  intro decode diff lines exit l h
  simp [build_app, h]

/-- C9 witness: the run over the malformed diff aborts before reading any of
its pending diagnostic lines. -/
theorem C9_malformed_diff_witness :
    build_app (fun _ => none) "@@ garbage @@" ["x"] none =
      (RunResult.diff_error "@@ garbage @@", 0) :=
  C9_malformed_diff.1 (fun _ => none) "@@ garbage @@" ["x"] none "@@ garbage @@"
    (by decide)

/-- C10: a subcommand exiting with Cargo's failed-to-complete code 101 does
not abort the run — the outcome is then decided by the tally alone — while
any other non-zero exit code aborts the run with a subprocess error. -/
theorem C10_cargo_exit_code (decode : String → Option Diagnostic) (diff : String)
    (lines : List String) (fc : FileChanges) (n : Nat)
    (hdiff : parse_diff diff = Except.ok fc)
    (hne : fc.is_empty = false)
    (hstream : process_stream decode lines fc = Except.ok n) :
    ((build_app decode diff lines (some CARGO_FAILED_EXIT_CODE)).1 =
      if n = 0 then RunResult.success else RunResult.failure n) ∧
    (∀ c : Int, c ≠ 0 → c ≠ CARGO_FAILED_EXIT_CODE →
      (build_app decode diff lines (some c)).1 = RunResult.subprocess_error c) := by
  constructor
  · by_cases h0 : n = 0
    · simp [build_app, hdiff, hne, hstream, CARGO_FAILED_EXIT_CODE, h0]
    · have hn : 0 < n := Nat.pos_of_ne_zero h0
      simp [build_app, hdiff, hne, hstream, CARGO_FAILED_EXIT_CODE, h0, hn]
  · intro c hc hc101
    simp [build_app, hdiff, hne, hstream, hc, hc101]

/-- C10 witness: with no relevant diagnostics, exit code 101 still yields
success; exit code 2 aborts with a subprocess error. -/
theorem C10_cargo_exit_code_witness :
    ((build_app (fun _ => none) "+++ b/a.rs\n@@ -1,0 +10,2 @@" []
        (some CARGO_FAILED_EXIT_CODE)).1 = RunResult.success) ∧
    ((build_app (fun _ => none) "+++ b/a.rs\n@@ -1,0 +10,2 @@" []
        (some 2)).1 = RunResult.subprocess_error 2) := by
  have h := C10_cargo_exit_code (fun _ => none) "+++ b/a.rs\n@@ -1,0 +10,2 @@" []
    [("a.rs", [⟨10, 11⟩])] 0 (by decide) (by decide) (by decide)
  exact ⟨h.1, h.2 2 (by decide) (by decide)⟩
